import Mathlib

/-!
Verification of the news retrieval pipeline of `src/News.py`
(function `cached_fetch_news`, lines 74-150).

The fetcher is embedded shallowly:

* the provider is an oracle `Nat → Nat → Resp` giving, for each page number
  and each attempt index (the value of the Python `retries` counter when the
  request is issued), either a network-level failure or an HTTP response;
* an HTTP response carries a status code and the parsed `articles` field of
  the body, `none` standing for an absent `articles` key
  (`data.get("articles", [])` supplies the `[]` default in the source);
* observable effects (HTTP requests and backoff sleeps) are recorded in an
  event trace, so that claims about the number, order and timing of requests
  are statements about the trace;
* the Python inner `while True` loop becomes `fetchPageLoop`, structurally
  recursive on a fuel argument.  The loop guard logic uses the `retries`
  counter exactly as the source does; the fuel only bounds the recursion and
  is never exhausted when the loop is entered with `retries = 0` (the retry
  ceilings `retries > 3` / `retries > 4` force a return at depth at most 5,
  and the entry point `fetchPage` supplies fuel 5).
-/

namespace News

/-- A provider article record as parsed from the response body: every field
the source reads through `.get` is optional.  `source` is the nested object
read by `a.get("source", {}).get("name")`. -/
structure RawSource where
  name : Option String
  deriving DecidableEq, Repr

/-- Raw provider article: `title`, `description`, `content`, `url`,
`source`, `publishedAt`, each possibly absent. -/
structure RawArticle where
  title : Option String
  description : Option String
  content : Option String
  url : Option String
  source : Option RawSource
  publishedAt : Option String
  deriving DecidableEq, Repr

/-- Normalized output article, lines 119-126 of the source: exactly the keys
`title`, `description`, `content`, `url`, `source`, `publishedAt`. -/
structure Article where
  title : Option String
  description : Option String
  content : Option String
  url : Option String
  source : Option String
  publishedAt : Option String
  deriving DecidableEq, Repr

/-- Field normalization, lines 119-126: every field is `a.get(...)`, and
`source` is `a.get("source", {}).get("name")`. -/
def normalize (a : RawArticle) : Article :=
  { title := a.title
    description := a.description
    content := a.content
    url := a.url
    source := (a.source.getD { name := none }).name
    publishedAt := a.publishedAt }

/-- Provider behaviour for one request: a network-level failure
(`requests.RequestException`, line 103) or an HTTP response with a status
code and the parsed `articles` field (`none` = field absent, for which
`data.get("articles", [])` supplies the `[]` default).  This typed body
covers only well-formed responses; a body whose `articles` value is present
but is not an array of records is not representable here and is modelled
separately by `ArticlesField` and `processBody` below. -/
inductive Resp where
  | netErr : Resp
  | http : Nat → Option (List RawArticle) → Resp
  deriving DecidableEq

/-- Observable side effects of the fetcher: an HTTP GET for a page (recorded
with the value of the `retries` counter at the time of the request) and a
backoff sleep of a given duration (`time.sleep`, lines 109 and 141). -/
inductive Event where
  | request : Nat → Nat → Event
  | sleep : Nat → Event
  deriving DecidableEq, Repr

/-- Outcome of the inner per-page loop: `done` models `return all_articles`
(the whole fetch ends), `next` models `break` (advance to the next page). -/
inductive PageOutcome where
  | done : PageOutcome
  | next : PageOutcome
  deriving DecidableEq, Repr

/-- The inner `while True` loop of the source (lines 100-148) for one page.
Arguments after `page`: remaining fuel, the current `retries` counter, and
the accumulated `all_articles`.  Returns the loop outcome, the new
accumulator and the trace of requests and sleeps, in order.  The fuel-zero
branch is unreachable from `fetchPage` (see module comment). -/
def fetchPageLoop (oracle : Nat → Nat → Resp) (page_size page : Nat) :
    Nat → Nat → List Article → PageOutcome × List Article × List Event
  | 0, _, acc => (PageOutcome.done, acc, [])
  | fuel + 1, retries, acc =>
    match oracle page retries with
    | Resp.netErr =>
      -- lines 103-110: retries += 1; if retries > 3 return; sleep 2**retries
      if retries + 1 > 3 then
        (PageOutcome.done, acc, [Event.request page retries])
      else
        let r := fetchPageLoop oracle page_size page fuel (retries + 1) acc
        (r.1, r.2.1,
          Event.request page retries :: Event.sleep (2 ^ (retries + 1)) :: r.2.2)
    | Resp.http status body =>
      if status = 200 then
        -- lines 112-132
        let articles := body.getD []
        if articles = [] then
          (PageOutcome.done, acc, [Event.request page retries])
        else
          let acc2 := acc ++ articles.map normalize
          if articles.length < page_size then
            (PageOutcome.done, acc2, [Event.request page retries])
          else
            (PageOutcome.next, acc2, [Event.request page retries])
      else if status = 429 ∨ status = 503 ∨ status = 500 then
        -- lines 135-141: retries += 1; if retries > 4 return; sleep 2**retries
        if retries + 1 > 4 then
          (PageOutcome.done, acc, [Event.request page retries])
        else
          let r := fetchPageLoop oracle page_size page fuel (retries + 1) acc
          (r.1, r.2.1,
            Event.request page retries :: Event.sleep (2 ^ (retries + 1)) :: r.2.2)
      else
        -- lines 143-149: other errors - show and stop
        (PageOutcome.done, acc, [Event.request page retries])

/-- One page of the fetch: the inner loop entered with `retries = 0`
(line 99) and enough fuel for the retry ceilings. -/
def fetchPage (oracle : Nat → Nat → Resp) (page_size page : Nat)
    (acc : List Article) : PageOutcome × List Article × List Event :=
  fetchPageLoop oracle page_size page 5 0 acc

/-- The outer `for page in range(1, max_pages + 1)` loop (line 87), recursing
on the number of remaining pages while carrying the current page number and
the accumulator.  Falling off the loop returns `all_articles` (line 150). -/
def fetchPages (oracle : Nat → Nat → Resp) (page_size : Nat) :
    Nat → Nat → List Article → List Article × List Event
  | 0, _, acc => (acc, [])
  | remaining + 1, page, acc =>
    match fetchPage oracle page_size page acc with
    | (PageOutcome.done, acc2, tr) => (acc2, tr)
    | (PageOutcome.next, acc2, tr) =>
      let rest := fetchPages oracle page_size remaining (page + 1) acc2
      (rest.1, tr ++ rest.2)

/-- The message of the `RuntimeError` raised on a missing credential
(line 83). -/
def missingKeyMsg : String :=
  "Environment variable GOOGLE_NEWS_API_KEY not set. See app comments for how to set it."

/-- `cached_fetch_news` (lines 75-150), minus the caching decorator, which is
modelled separately.  `api_key` is the value of
`os.getenv("GOOGLE_NEWS_API_KEY")`; the Python guard `if not api_key` fires
on both an unset variable (`none`) and an empty string.  `query`, `from_iso`
and `to_iso` are request parameters whose effect on the provider is absorbed
into the oracle.  Returns the result (or the raised error) together with the
full event trace. -/
def cached_fetch_news (api_key : Option String) (oracle : Nat → Nat → Resp)
    (query from_iso to_iso : String) (max_pages page_size : Nat) :
    Except String (List Article) × List Event :=
  match api_key with
  | none => (Except.error missingKeyMsg, [])
  | some k =>
    if k = "" then (Except.error missingKeyMsg, [])
    else
      let r := fetchPages oracle page_size max_pages 1 []
      (Except.ok r.1, r.2)

/-! ### The dynamically-typed `articles` field

The source is dynamically typed: `data.get("articles", [])` (line 113)
yields `[]` only when the key is absent, `if not articles` (line 114)
absorbs any present falsy value (`null`, `[]`, `""`, `0`, `{}`), and the
normalization loop `for a in articles: a.get(...)` (lines 117-125) raises an
uncaught `TypeError`/`AttributeError` when `articles` is present, truthy and
not an array of records (e.g. `"articles": "x"`).  The following refinement
of the 200-response handling represents those cases, which the typed body of
`Resp` cannot. -/

/-- The parsed value of a 200 response's `articles` field as the code sees
it: the key is absent (line 113's `.get` default applies), the value is
present but falsy (line 114 treats it as end of results), the value is an
array of article records (possibly empty, which is also falsy), or the
value is present, truthy and not an array of records. -/
inductive ArticlesField where
  | absent : ArticlesField
  | nullish : ArticlesField
  | records : List RawArticle → ArticlesField
  | malformed : ArticlesField
  deriving DecidableEq

/-- Outcome of handling one HTTP 200 body (lines 113-132): `stop` models
`return all_articles`, `next` models `break` to the next page, and `raised`
models an uncaught exception escaping from the normalization loop. -/
inductive BodyOutcome where
  | stop : List Article → BodyOutcome
  | next : List Article → BodyOutcome
  | raised : BodyOutcome
  deriving DecidableEq

/-- Lines 113-132 of the source for one 200 response, over the
dynamically-typed `articles` value.  An absent key defaults to `[]` and a
present falsy value fails the `if not articles` guard — both return the
accumulator; an array of records is normalized and appended, returning on a
short page and advancing otherwise; a present truthy non-array value makes
the `for a in articles` loop raise. -/
def processBody (page_size : Nat) (acc : List Article) :
    ArticlesField → BodyOutcome
  | ArticlesField.absent => BodyOutcome.stop acc
  | ArticlesField.nullish => BodyOutcome.stop acc
  | ArticlesField.records l =>
    if l = [] then BodyOutcome.stop acc
    else
      let acc2 := acc ++ l.map normalize
      if l.length < page_size then BodyOutcome.stop acc2
      else BodyOutcome.next acc2
  | ArticlesField.malformed => BodyOutcome.raised

/-! ### The result cache

The source delegates caching to `@st.cache_data(ttl=60*5)` (line 74); the
cache mechanism itself is library code outside this repository, so it is
modelled from the spec. -/

/-- Query Key: the tuple (search string, from-timestamp, to-timestamp,
max pages, page size) that determines cache identity. -/
abbrev QueryKey := String × String × String × Nat × Nat

/-- Modelled from the spec: a Cache Entry is the stored article list
together with its creation time. -/
structure CacheEntry where
  result : List Article
  storedAt : Nat
  deriving DecidableEq

/-- The time-to-live, `ttl=60*5` seconds (line 74 of the source). -/
def cacheTTL : Nat := 60 * 5

/-- Modelled from the spec: cache lookup is passive, checked against
wall-clock time at access; an entry is fresh for `cacheTTL` time units from
its storage time. -/
def cacheLookup (cache : List (QueryKey × CacheEntry)) (key : QueryKey)
    (now : Nat) : Option (List Article) :=
  match cache.find? (fun e => decide (e.1 = key)) with
  | some e => if now < e.2.storedAt + cacheTTL then some e.2.result else none
  | none => none

/-- Modelled from the spec: the cached entry point around an underlying
fetch function.  On a fresh (never seen, or expired) key it invokes the
fetch, stores the result with the current time and returns it; on a
non-expired key it returns the stored result with no underlying call.  The
boolean records whether the underlying fetch ran. -/
def cachedCall (fetchFn : QueryKey → List Article)
    (cache : List (QueryKey × CacheEntry)) (key : QueryKey) (now : Nat) :
    List Article × List (QueryKey × CacheEntry) × Bool :=
  match cacheLookup cache key now with
  | some r => (r, cache, false)
  | none =>
    let r := fetchFn key
    (r, (key, { result := r, storedAt := now }) :: cache, true)

/-! ### Trace observers and concrete instances -/

/-- The trace of first requests (`retries = 0`) for `n` consecutive pages
starting at `page`. -/
def reqTrace (page : Nat) : Nat → List Event
  | 0 => []
  | n + 1 => Event.request page 0 :: reqTrace (page + 1) n

/-- Classifier for request events in a trace. -/
def isReq : Event → Bool
  | Event.request _ _ => true
  | Event.sleep _ => false

/-- The page number of a request event, `none` for a sleep. -/
def reqPage : Event → Option Nat
  | Event.request p _ => some p
  | Event.sleep _ => none

/-- A fixed raw article with only a title, used in concrete instances. -/
def mkRaw (s : String) : RawArticle :=
  { title := some s, description := none, content := none, url := none,
    source := none, publishedAt := none }

/-- Provider where page 1 is a full page of two articles (page size 2) and
page 2 is a short page of one article. -/
def oracleC1 : Nat → Nat → Resp := fun p _ =>
  if p = 1 then Resp.http 200 (some [mkRaw "a", mkRaw "b"])
  else Resp.http 200 (some [mkRaw "c"])

/-- Provider whose first page is empty. -/
def orcEmpty : Nat → Nat → Resp := fun _ _ => Resp.http 200 (some [])

/-- Provider answering every request with HTTP 404. -/
def orc404 : Nat → Nat → Resp := fun _ _ => Resp.http 404 none

/-- Provider answering 200 with no `articles` field in the body. -/
def orcNoField : Nat → Nat → Resp := fun _ _ => Resp.http 200 none

/-- Provider always returning one short page of a single article. -/
def orcOne : Nat → Nat → Resp := fun _ _ => Resp.http 200 (some [mkRaw "w"])

/-- A fixed underlying fetch function for cache instances. -/
def fetchFn0 : QueryKey → List Article := fun _ => [normalize (mkRaw "w")]

/-- A fixed Query Key. -/
def key0 : QueryKey := ("q", "f", "t", 3, 100)

/-! ### Helper lemmas about the fetch loops -/

theorem reqTrace_snoc (page n : Nat) :
    reqTrace page (n + 1) = reqTrace page n ++ [Event.request (page + n) 0] := by
  induction n generalizing page with
  | zero => simp [reqTrace]
  | succ m ih =>
    have h : page + 1 + m = page + (m + 1) := by omega
    have e1 : reqTrace page (m + 1 + 1) =
        Event.request page 0 :: reqTrace (page + 1) (m + 1) := rfl
    have e2 : reqTrace page (m + 1) =
        Event.request page 0 :: reqTrace (page + 1) m := rfl
    rw [e1, ih (page + 1), h, e2, List.cons_append]

theorem fetchPageLoop_200_empty {oracle : Nat → Nat → Resp} {page retries : Nat}
    {body : Option (List RawArticle)} (ps fuel : Nat) (acc : List Article)
    (h : oracle page retries = Resp.http 200 body) (hb : body.getD [] = []) :
    fetchPageLoop oracle ps page (fuel + 1) retries acc =
      (PageOutcome.done, acc, [Event.request page retries]) := by
  simp [fetchPageLoop, h, hb]

theorem fetchPageLoop_200_short {oracle : Nat → Nat → Resp} {page retries : Nat}
    {l : List RawArticle} (ps fuel : Nat) (acc : List Article)
    (h : oracle page retries = Resp.http 200 (some l)) (hne : l ≠ [])
    (hlt : l.length < ps) :
    fetchPageLoop oracle ps page (fuel + 1) retries acc =
      (PageOutcome.done, acc ++ l.map normalize, [Event.request page retries]) := by
  simp [fetchPageLoop, h, hne, hlt]

theorem fetchPageLoop_200_full {oracle : Nat → Nat → Resp} {page retries : Nat}
    {l : List RawArticle} (ps fuel : Nat) (acc : List Article)
    (h : oracle page retries = Resp.http 200 (some l)) (hne : l ≠ [])
    (hge : ¬ l.length < ps) :
    fetchPageLoop oracle ps page (fuel + 1) retries acc =
      (PageOutcome.next, acc ++ l.map normalize, [Event.request page retries]) := by
  simp [fetchPageLoop, h, hne, hge]

theorem fetchPageLoop_other_status {oracle : Nat → Nat → Resp}
    {page retries status : Nat} {body : Option (List RawArticle)}
    (ps fuel : Nat) (acc : List Article)
    (h : oracle page retries = Resp.http status body)
    (h200 : status ≠ 200) (h429 : status ≠ 429) (h503 : status ≠ 503)
    (h500 : status ≠ 500) :
    fetchPageLoop oracle ps page (fuel + 1) retries acc =
      (PageOutcome.done, acc, [Event.request page retries]) := by
  simp [fetchPageLoop, h, h200, h429, h503, h500]

theorem fetchPages_step_done {oracle : Nat → Nat → Resp} {ps page : Nat}
    {acc acc2 : List Article} {tr : List Event} (rem : Nat)
    (h : fetchPage oracle ps page acc = (PageOutcome.done, acc2, tr)) :
    fetchPages oracle ps (rem + 1) page acc = (acc2, tr) := by
  simp [fetchPages, h]

theorem fetchPages_step_next {oracle : Nat → Nat → Resp} {ps page : Nat}
    {acc acc2 : List Article} {tr : List Event} (rem : Nat)
    (h : fetchPage oracle ps page acc = (PageOutcome.next, acc2, tr)) :
    fetchPages oracle ps (rem + 1) page acc =
      ((fetchPages oracle ps rem (page + 1) acc2).1,
        tr ++ (fetchPages oracle ps rem (page + 1) acc2).2) := by
  simp [fetchPages, h]

/-- Running the outer loop over a block of consecutive full pages appends all
their articles in order and requests each of those pages exactly once, then
continues after the block. -/
theorem fetchPages_full_block (oracle : Nat → Nat → Resp) (ps : Nat)
    (pl : List (List RawArticle)) :
    ∀ (remaining page : Nat) (acc : List Article),
      pl.length ≤ remaining → 0 < ps →
      (∀ i (h : i < pl.length),
        oracle (page + i) 0 = Resp.http 200 (some (pl.get ⟨i, h⟩)) ∧
          (pl.get ⟨i, h⟩).length = ps) →
      fetchPages oracle ps remaining page acc =
        ((fetchPages oracle ps (remaining - pl.length) (page + pl.length)
            (acc ++ pl.flatten.map normalize)).1,
          reqTrace page pl.length ++
            (fetchPages oracle ps (remaining - pl.length) (page + pl.length)
              (acc ++ pl.flatten.map normalize)).2) := by
  induction pl with
  | nil =>
    intro remaining page acc _ _ _
    simp [reqTrace]
  | cons l pl ih =>
    intro remaining page acc hle hps hfull
    obtain ⟨r, rfl⟩ : ∃ r, remaining = r + 1 :=
      ⟨remaining - 1, by simp only [List.length_cons] at hle; omega⟩
    have h0 := hfull 0 (by simp)
    have hlen : l.length = ps := by simpa using h0.2
    have horc : oracle page 0 = Resp.http 200 (some l) := by simpa using h0.1
    have hne : l ≠ [] := by
      intro hnil
      rw [hnil] at hlen
      simp at hlen
      omega
    have hge : ¬ l.length < ps := by omega
    have hfp : fetchPage oracle ps page acc =
        (PageOutcome.next, acc ++ l.map normalize, [Event.request page 0]) :=
      fetchPageLoop_200_full ps 4 acc horc hne hge
    have hshift : ∀ i (h : i < pl.length),
        oracle (page + 1 + i) 0 = Resp.http 200 (some (pl.get ⟨i, h⟩)) ∧
          (pl.get ⟨i, h⟩).length = ps := by
      intro i hi
      have hmem := hfull (i + 1) (by simpa using Nat.succ_lt_succ hi)
      have harith : page + (i + 1) = page + 1 + i := by omega
      simpa [List.get_cons_succ, harith] using hmem
    rw [fetchPages_step_next r hfp]
    rw [ih r (page + 1) (acc ++ l.map normalize)
      (by simp only [List.length_cons] at hle; omega) hps hshift]
    have harith2 : page + (pl.length + 1) = page + 1 + pl.length := by omega
    simp [reqTrace, List.flatten_cons, List.map_append, List.append_assoc,
      Nat.succ_sub_succ, harith2]

/-! ### Claim C1 -/

/-- C1 as frozen is false on the code: with page size 2, a provider
returning one full page `[a, b]` followed by the short page `[c]`, the
fetcher returns the three articles `[a, b, c]`, not only the concatenation
`[a, b]` of the full pages — the source appends a short page's articles
before returning (lines 117-130 of `src/News.py`). -/
theorem c1_counterexample :
    oracleC1 1 0 = Resp.http 200 (some [mkRaw "a", mkRaw "b"]) ∧
    oracleC1 2 0 = Resp.http 200 (some [mkRaw "c"]) ∧
    (cached_fetch_news (some "key") oracleC1 "q" "f" "t" 3 2).1 =
      Except.ok (([mkRaw "a", mkRaw "b"] ++ [mkRaw "c"]).map normalize) ∧
    ¬ (cached_fetch_news (some "key") oracleC1 "q" "f" "t" 3 2).1 =
      Except.ok ([mkRaw "a", mkRaw "b"].map normalize) := by
  refine ⟨rfl, rfl, rfl, ?_⟩
  intro hcontra
  rw [show (cached_fetch_news (some "key") oracleC1 "q" "f" "t" 3 2).1 =
      Except.ok (([mkRaw "a", mkRaw "b"] ++ [mkRaw "c"]).map normalize)
      from rfl] at hcontra
  exact absurd (Except.ok.inj hcontra) (by decide)

/-- C1 (amended): for every query, date range and valid credential, if the
provider returns `N` consecutive full pages of exactly `page_size` articles
followed by a short or empty page, and `N < max_pages`, then the fetcher
returns the concatenation of those `N` pages' articles followed by the
terminating page's articles (none when that page is empty), preserving
provider order within each page and page order overall, and requests exactly
pages `1..N+1` once each — no page request beyond the terminating page. -/
theorem c1_full_pages_amended (k q f t : String) (oracle : Nat → Nat → Resp)
    (pl : List (List RawArticle)) (lastPage : List RawArticle)
    (max_pages ps : Nat) (hk : k ≠ "")
    (hfull : ∀ i (h : i < pl.length),
      oracle (1 + i) 0 = Resp.http 200 (some (pl.get ⟨i, h⟩)) ∧
        (pl.get ⟨i, h⟩).length = ps)
    (hshort : oracle (1 + pl.length) 0 = Resp.http 200 (some lastPage))
    (hlt : lastPage.length < ps) (hmp : pl.length < max_pages) :
    cached_fetch_news (some k) oracle q f t max_pages ps =
      (Except.ok ((pl.flatten ++ lastPage).map normalize),
        reqTrace 1 (pl.length + 1)) := by
  have hps : 0 < ps := Nat.lt_of_le_of_lt (Nat.zero_le _) hlt
  obtain ⟨m, hm⟩ : ∃ m, max_pages - pl.length = m + 1 :=
    ⟨max_pages - pl.length - 1, by omega⟩
  have hrest : fetchPages oracle ps (max_pages - pl.length) (1 + pl.length)
      ([] ++ pl.flatten.map normalize) =
      (pl.flatten.map normalize ++ lastPage.map normalize,
        [Event.request (1 + pl.length) 0]) := by
    rw [hm]
    by_cases hnil : lastPage = []
    · rw [fetchPages_step_done m
        (fetchPageLoop_200_empty ps 4 ([] ++ pl.flatten.map normalize) hshort
          (by simp [hnil]))]
      simp [hnil]
    · rw [fetchPages_step_done m
        (fetchPageLoop_200_short ps 4 ([] ++ pl.flatten.map normalize) hshort
          hnil hlt)]
      simp
  have hblock := fetchPages_full_block oracle ps pl max_pages 1 []
    (by omega) hps hfull
  rw [hrest] at hblock
  have hkey : cached_fetch_news (some k) oracle q f t max_pages ps =
      (Except.ok (fetchPages oracle ps max_pages 1 []).1,
        (fetchPages oracle ps max_pages 1 []).2) := by
    simp [cached_fetch_news, hk]
  rw [hkey, hblock]
  simp [reqTrace_snoc, List.map_append]

/-- Witness for C1 (amended): one full page of two articles, then a short
page of one, page size 2, `max_pages` 3. -/
theorem c1_full_pages_amended_witness :
    cached_fetch_news (some "key") oracleC1 "q" "f" "t" 3 2 =
      (Except.ok (([[mkRaw "a", mkRaw "b"]].flatten ++ [mkRaw "c"]).map normalize),
        reqTrace 1 2) := by
  have h := c1_full_pages_amended "key" "q" "f" "t" oracleC1
    [[mkRaw "a", mkRaw "b"]] [mkRaw "c"] 3 2 (by decide)
    (by
      intro i hi
      have hz : i = 0 := by simp at hi; omega
      subst hz
      exact ⟨rfl, rfl⟩)
    rfl (by decide) (by decide)
  simpa using h

/-! ### Claim C2 -/

/-- C2: the two pagination termination signals.  An empty page makes the
fetcher return the accumulator with that single page request and no further
requests; a short page makes it append that page's articles and return with
that single request, for any remaining page budget; and when the first page
is empty the whole fetch returns the empty list after exactly one request. -/
theorem c2_termination_signals :
    (∀ (oracle : Nat → Nat → Resp) (ps rem page : Nat) (acc : List Article),
      oracle page 0 = Resp.http 200 (some []) →
      fetchPages oracle ps (rem + 1) page acc = (acc, [Event.request page 0])) ∧
    (∀ (oracle : Nat → Nat → Resp) (ps rem page : Nat) (acc : List Article)
        (l : List RawArticle),
      oracle page 0 = Resp.http 200 (some l) → l ≠ [] → l.length < ps →
      fetchPages oracle ps (rem + 1) page acc =
        (acc ++ l.map normalize, [Event.request page 0])) ∧
    (∀ (k q f t : String) (oracle : Nat → Nat → Resp) (mp ps : Nat),
      k ≠ "" → 0 < mp → oracle 1 0 = Resp.http 200 (some []) →
      cached_fetch_news (some k) oracle q f t mp ps =
        (Except.ok [], [Event.request 1 0])) := by
  refine ⟨?_, ?_, ?_⟩
  · intro oracle ps rem page acc h
    exact fetchPages_step_done rem (fetchPageLoop_200_empty ps 4 acc h (by simp))
  · intro oracle ps rem page acc l h hne hlt
    exact fetchPages_step_done rem (fetchPageLoop_200_short ps 4 acc h hne hlt)
  · intro k q f t oracle mp ps hk hmp h
    obtain ⟨m, rfl⟩ : ∃ m, mp = m + 1 := ⟨mp - 1, by omega⟩
    have hstep := fetchPages_step_done m
      (fetchPageLoop_200_empty ps 4 ([] : List Article) h (by simp))
    simp [cached_fetch_news, hk, hstep]

/-- Witness for C2: a provider whose first page is empty yields the empty
result after exactly one request. -/
theorem c2_termination_signals_witness :
    cached_fetch_news (some "key") orcEmpty "q" "f" "t" 3 50 =
      (Except.ok [], [Event.request 1 0]) :=
  c2_termination_signals.2.2 "key" "q" "f" "t" orcEmpty 3 50 (by decide)
    (by omega) rfl

/-! ### Claim C3 -/

/-- C3: with no credential available (unset variable or empty string), the
call fails with the missing-credential error and an empty event trace — no
network request is issued and there is no retry; and with a valid credential
the call never surfaces an error: it returns `Except.ok` of the fetch
result, whatever the provider does. -/
theorem c3_missing_credential :
    (∀ (api_key : Option String) (oracle : Nat → Nat → Resp) (q f t : String)
        (mp ps : Nat),
      api_key = none ∨ api_key = some "" →
      cached_fetch_news api_key oracle q f t mp ps =
        (Except.error missingKeyMsg, [])) ∧
    (∀ (k q f t : String) (oracle : Nat → Nat → Resp) (mp ps : Nat), k ≠ "" →
      (cached_fetch_news (some k) oracle q f t mp ps).1 =
        Except.ok (fetchPages oracle ps mp 1 []).1) := by
  constructor
  · rintro api_key oracle q f t mp ps (rfl | rfl) <;> simp [cached_fetch_news]
  · intro k q f t oracle mp ps hk
    simp [cached_fetch_news, hk]

/-- Witness for C3: an unset credential gives the fatal configuration error
with zero requests. -/
theorem c3_missing_credential_witness :
    cached_fetch_news none (fun _ _ => Resp.netErr) "q" "f" "t" 3 100 =
      (Except.error missingKeyMsg, []) :=
  c3_missing_credential.1 none (fun _ _ => Resp.netErr) "q" "f" "t" 3 100
    (Or.inl rfl)

/-! ### Claim C5 -/

/-- C5: a non-200 status other than 429, 500, 503 is terminal: the inner
loop stops at once (one request, no sleep, no retry, at any `retries`
value), the whole fetch returns the articles accumulated so far, and with a
valid credential the caller still receives `Except.ok`, not an error. -/
theorem c5_terminal_status :
    (∀ (oracle : Nat → Nat → Resp) (ps page fuel retries status : Nat)
        (body : Option (List RawArticle)) (acc : List Article),
      oracle page retries = Resp.http status body →
      status ≠ 200 → status ≠ 429 → status ≠ 503 → status ≠ 500 →
      fetchPageLoop oracle ps page (fuel + 1) retries acc =
        (PageOutcome.done, acc, [Event.request page retries])) ∧
    (∀ (oracle : Nat → Nat → Resp) (ps rem page status : Nat)
        (body : Option (List RawArticle)) (acc : List Article),
      oracle page 0 = Resp.http status body →
      status ≠ 200 → status ≠ 429 → status ≠ 503 → status ≠ 500 →
      fetchPages oracle ps (rem + 1) page acc = (acc, [Event.request page 0])) ∧
    (∀ (k q f t : String) (oracle : Nat → Nat → Resp) (mp ps status : Nat)
        (body : Option (List RawArticle)), k ≠ "" → 0 < mp →
      oracle 1 0 = Resp.http status body →
      status ≠ 200 → status ≠ 429 → status ≠ 503 → status ≠ 500 →
      cached_fetch_news (some k) oracle q f t mp ps =
        (Except.ok [], [Event.request 1 0])) := by
  refine ⟨?_, ?_, ?_⟩
  · intro oracle ps page fuel retries status body acc h h200 h429 h503 h500
    exact fetchPageLoop_other_status ps fuel acc h h200 h429 h503 h500
  · intro oracle ps rem page status body acc h h200 h429 h503 h500
    exact fetchPages_step_done rem
      (fetchPageLoop_other_status ps 4 acc h h200 h429 h503 h500)
  · intro k q f t oracle mp ps status body hk hmp h h200 h429 h503 h500
    obtain ⟨m, rfl⟩ : ∃ m, mp = m + 1 := ⟨mp - 1, by omega⟩
    have hstep := fetchPages_step_done m
      (fetchPageLoop_other_status ps 4 ([] : List Article) h h200 h429 h503 h500)
    simp [cached_fetch_news, hk, hstep]

/-- Witness for C5: sustained HTTP 404 on the first page yields the empty
result after one request, with no error raised. -/
theorem c5_terminal_status_witness :
    cached_fetch_news (some "key") orc404 "q" "f" "t" 5 100 =
      (Except.ok [], [Event.request 1 0]) :=
  c5_terminal_status.2.2 "key" "q" "f" "t" orc404 5 100 404 none (by decide)
    (by omega) rfl (by decide) (by decide) (by decide) (by decide)

/-! ### Claim C7 -/

/-- C7 as frozen is false on the code: a 200 response whose `articles`
field is present but malformed — truthy and not an array of records, such
as `"articles": "x"` — is not treated as an empty page.  The `for a in
articles` normalization loop of line 117 raises an uncaught
`AttributeError`/`TypeError`, which propagates to the caller instead of
terminating pagination normally with the accumulated articles. -/
theorem c7_counterexample :
    processBody 50 [] ArticlesField.malformed = BodyOutcome.raised ∧
    ¬ processBody 50 [] ArticlesField.malformed = BodyOutcome.stop [] :=
  ⟨rfl, by decide⟩

/-- C7 (amended): a 200 response whose `articles` field is absent, null or
otherwise falsy, or an empty array is treated as an empty page: pagination
terminates normally, returning the accumulated articles after that page's
single request, not an error.  In the dynamically-typed body model all
three cases return the accumulator; in the trace model an absent field
(`none`) behaves exactly like an explicit empty list, at any `retries`
value, and ends the whole fetch with the accumulated articles. -/
theorem c7_empty_articles_amended :
    (∀ (ps : Nat) (acc : List Article),
      processBody ps acc ArticlesField.absent = BodyOutcome.stop acc ∧
      processBody ps acc ArticlesField.nullish = BodyOutcome.stop acc ∧
      processBody ps acc (ArticlesField.records []) = BodyOutcome.stop acc) ∧
    (∀ (oracle : Nat → Nat → Resp) (ps page fuel retries : Nat)
        (acc : List Article),
      oracle page retries = Resp.http 200 none →
      fetchPageLoop oracle ps page (fuel + 1) retries acc =
        (PageOutcome.done, acc, [Event.request page retries])) ∧
    (∀ (oracle : Nat → Nat → Resp) (ps page fuel retries : Nat)
        (acc : List Article),
      oracle page retries = Resp.http 200 (some []) →
      fetchPageLoop oracle ps page (fuel + 1) retries acc =
        (PageOutcome.done, acc, [Event.request page retries])) ∧
    (∀ (oracle : Nat → Nat → Resp) (ps rem page : Nat) (acc : List Article),
      oracle page 0 = Resp.http 200 none →
      fetchPages oracle ps (rem + 1) page acc = (acc, [Event.request page 0])) := by
  refine ⟨?_, ?_, ?_, ?_⟩
  · intro ps acc
    exact ⟨rfl, rfl, by simp [processBody]⟩
  · intro oracle ps page fuel retries acc h
    exact fetchPageLoop_200_empty ps fuel acc h (by simp)
  · intro oracle ps page fuel retries acc h
    exact fetchPageLoop_200_empty ps fuel acc h (by simp)
  · intro oracle ps rem page acc h
    exact fetchPages_step_done rem (fetchPageLoop_200_empty ps 4 acc h (by simp))

/-- Witness for C7 (amended): a provider returning 200 with no `articles`
field terminates the fetch normally after one request. -/
theorem c7_empty_articles_amended_witness :
    fetchPages orcNoField 50 3 1 [] = ([], [Event.request 1 0]) :=
  c7_empty_articles_amended.2.2.2 orcNoField 50 2 1 [] rfl

/-! ### Claim C4 -/

/-- Every event in the inner loop's trace belongs to the loop's own page:
its `reqPage` is `none` (a sleep) or the loop's page. -/
theorem fetchPageLoop_trace_page (oracle : Nat → Nat → Resp) (ps page : Nat) :
    ∀ (fuel retries : Nat) (acc : List Article) (e : Event),
      e ∈ (fetchPageLoop oracle ps page fuel retries acc).2.2 →
      reqPage e = none ∨ reqPage e = some page := by
  intro fuel
  induction fuel with
  | zero => intro retries acc e he; simp [fetchPageLoop] at he
  | succ n ih =>
    intro retries acc e he
    rcases horc : oracle page retries with _ | ⟨status, body⟩
    · by_cases hc : retries + 1 > 3
      · simp [fetchPageLoop, horc, hc] at he
        simp [he, reqPage]
      · simp [fetchPageLoop, horc, hc] at he
        rcases he with he | he | he
        · simp [he, reqPage]
        · simp [he, reqPage]
        · exact ih (retries + 1) acc e he
    · by_cases h200 : status = 200
      · subst h200
        by_cases hemp : body.getD [] = []
        · simp [fetchPageLoop, horc, hemp] at he
          simp [he, reqPage]
        · by_cases hlt : (body.getD []).length < ps
          · simp [fetchPageLoop, horc, hemp, hlt] at he
            simp [he, reqPage]
          · simp [fetchPageLoop, horc, hemp, hlt] at he
            simp [he, reqPage]
      · by_cases htr : status = 429 ∨ status = 503 ∨ status = 500
        · by_cases hc : retries + 1 > 4
          · simp [fetchPageLoop, horc, h200, htr, hc] at he
            simp [he, reqPage]
          · simp [fetchPageLoop, horc, h200, htr, hc] at he
            rcases he with he | he | he
            · simp [he, reqPage]
            · simp [he, reqPage]
            · exact ih (retries + 1) acc e he
        · simp [fetchPageLoop, horc, h200, htr] at he
          simp [he, reqPage]

/-- The inner loop performs at most `fuel` requests. -/
theorem fetchPageLoop_countP (oracle : Nat → Nat → Resp) (ps page : Nat) :
    ∀ (fuel retries : Nat) (acc : List Article),
      ((fetchPageLoop oracle ps page fuel retries acc).2.2).countP isReq ≤
        fuel := by
  intro fuel
  induction fuel with
  | zero => intro retries acc; simp [fetchPageLoop]
  | succ n ih =>
    intro retries acc
    rcases horc : oracle page retries with _ | ⟨status, body⟩
    · by_cases hc : retries + 1 > 3
      · simp [fetchPageLoop, horc, hc, isReq, List.countP_cons]
      · simp [fetchPageLoop, horc, hc, isReq, List.countP_cons]
        have := ih (retries + 1) acc
        omega
    · by_cases h200 : status = 200
      · subst h200
        by_cases hemp : body.getD [] = []
        · simp [fetchPageLoop, horc, hemp, isReq, List.countP_cons]
        · by_cases hlt : (body.getD []).length < ps
          · simp [fetchPageLoop, horc, hemp, hlt, isReq, List.countP_cons]
          · simp [fetchPageLoop, horc, hemp, hlt, isReq, List.countP_cons]
      · by_cases htr : status = 429 ∨ status = 503 ∨ status = 500
        · by_cases hc : retries + 1 > 4
          · simp [fetchPageLoop, horc, h200, htr, hc, isReq, List.countP_cons]
          · simp [fetchPageLoop, horc, h200, htr, hc, isReq, List.countP_cons]
            have := ih (retries + 1) acc
            omega
        · simp [fetchPageLoop, horc, h200, htr, isReq, List.countP_cons]

/-- Every request in the outer loop's trace is for a page in
`[page, page + remaining)`. -/
theorem fetchPages_trace_page_bounds (oracle : Nat → Nat → Resp) (ps : Nat) :
    ∀ (remaining page : Nat) (acc : List Article) (e : Event) (p : Nat),
      e ∈ (fetchPages oracle ps remaining page acc).2 →
      reqPage e = some p → page ≤ p ∧ p < page + remaining := by
  intro remaining
  induction remaining with
  | zero => intro page acc e p he _; simp [fetchPages] at he
  | succ n ih =>
    intro page acc e p he hp
    rcases hfp : fetchPage oracle ps page acc with ⟨outcome, acc2, tr⟩
    have h5 : fetchPageLoop oracle ps page 5 0 acc = (outcome, acc2, tr) := hfp
    have htr : ∀ e2, e2 ∈ tr → reqPage e2 = none ∨ reqPage e2 = some page := by
      intro e2 he2
      exact fetchPageLoop_trace_page oracle ps page 5 0 acc e2
        (by rw [h5]; exact he2)
    have hoftr : e ∈ tr → page ≤ p ∧ p < page + (n + 1) := by
      intro hetr
      rcases htr e hetr with h | h
      · rw [hp] at h; cases h
      · rw [hp] at h
        have := Option.some.inj h
        omega
    cases outcome with
    | done =>
      rw [fetchPages_step_done n hfp] at he
      exact hoftr (by simpa using he)
    | next =>
      rw [fetchPages_step_next n hfp] at he
      rcases List.mem_append.mp (by simpa using he) with h | h
      · exact hoftr h
      · have := ih (page + 1) acc2 e p h hp
        omega

/-- Requests for a fixed page number in the whole fetch trace: at most 5. -/
theorem fetchPages_countP_page (oracle : Nat → Nat → Resp) (ps : Nat) :
    ∀ (remaining page : Nat) (acc : List Article) (p : Nat),
      ((fetchPages oracle ps remaining page acc).2).countP
        (fun e => decide (reqPage e = some p)) ≤ 5 := by
  intro remaining
  induction remaining with
  | zero => intro page acc p; simp [fetchPages]
  | succ n ih =>
    intro page acc p
    rcases hfp : fetchPage oracle ps page acc with ⟨outcome, acc2, tr⟩
    have h5 : fetchPageLoop oracle ps page 5 0 acc = (outcome, acc2, tr) := hfp
    have htrpage : ∀ e2, e2 ∈ tr → reqPage e2 = none ∨ reqPage e2 = some page := by
      intro e2 he2
      exact fetchPageLoop_trace_page oracle ps page 5 0 acc e2
        (by rw [h5]; exact he2)
    have htrcount : tr.countP isReq ≤ 5 := by
      have h := fetchPageLoop_countP oracle ps page 5 0 acc
      rw [h5] at h
      simpa using h
    have hmono : tr.countP (fun e => decide (reqPage e = some p)) ≤
        tr.countP isReq := by
      apply List.countP_mono_left
      intro e _ hdp
      cases e with
      | request a b => simp [isReq]
      | sleep d => simp [reqPage] at hdp
    cases outcome with
    | done =>
      rw [fetchPages_step_done n hfp]
      exact le_trans hmono htrcount
    | next =>
      rw [fetchPages_step_next n hfp]
      by_cases hppage : p = page
      · have hrest0 : ((fetchPages oracle ps n (page + 1) acc2).2).countP
            (fun e => decide (reqPage e = some p)) = 0 := by
          rw [List.countP_eq_zero]
          intro e he hd
          have hd2 : reqPage e = some p := of_decide_eq_true hd
          have := fetchPages_trace_page_bounds oracle ps n (page + 1) acc2
            e p he hd2
          omega
        have : ((tr ++ (fetchPages oracle ps n (page + 1) acc2).2)).countP
            (fun e => decide (reqPage e = some p)) =
            tr.countP (fun e => decide (reqPage e = some p)) := by
          rw [List.countP_append, hrest0]
          omega
        simpa [this] using le_trans hmono htrcount
      · have htr0 : tr.countP (fun e => decide (reqPage e = some p)) = 0 := by
          rw [List.countP_eq_zero]
          intro e he hd
          have hd2 : reqPage e = some p := of_decide_eq_true hd
          rcases htrpage e he with h | h
          · rw [hd2] at h; cases h
          · rw [hd2] at h
            exact hppage (Option.some.inj h)
        have hsplit : ((tr ++ (fetchPages oracle ps n (page + 1) acc2).2)).countP
            (fun e => decide (reqPage e = some p)) =
            ((fetchPages oracle ps n (page + 1) acc2).2).countP
              (fun e => decide (reqPage e = some p)) := by
          rw [List.countP_append, htr0]
          omega
        simpa [hsplit] using ih (page + 1) acc2 p

/-- The whole fetch performs at most `5 * remaining` requests. -/
theorem fetchPages_countP_total (oracle : Nat → Nat → Resp) (ps : Nat) :
    ∀ (remaining page : Nat) (acc : List Article),
      ((fetchPages oracle ps remaining page acc).2).countP isReq ≤
        5 * remaining := by
  intro remaining
  induction remaining with
  | zero => intro page acc; simp [fetchPages]
  | succ n ih =>
    intro page acc
    rcases hfp : fetchPage oracle ps page acc with ⟨outcome, acc2, tr⟩
    have h5 : fetchPageLoop oracle ps page 5 0 acc = (outcome, acc2, tr) := hfp
    have htrcount : tr.countP isReq ≤ 5 := by
      have h := fetchPageLoop_countP oracle ps page 5 0 acc
      rw [h5] at h
      simpa using h
    cases outcome with
    | done =>
      rw [fetchPages_step_done n hfp]
      calc ((acc2, tr).2).countP isReq = tr.countP isReq := rfl
        _ ≤ 5 := htrcount
        _ ≤ 5 * (n + 1) := by omega
    | next =>
      rw [fetchPages_step_next n hfp]
      have hrest := ih (page + 1) acc2
      calc ((tr ++ (fetchPages oracle ps n (page + 1) acc2).2)).countP isReq =
          tr.countP isReq +
            ((fetchPages oracle ps n (page + 1) acc2).2).countP isReq :=
            List.countP_append _ _ _
        _ ≤ 5 * (n + 1) := by omega

/-! ### Claim C9 -/

/-- C9: for any call with `max_pages = P`, the trace contains requests for
at most `P` distinct page numbers — retries of the same page do not add to
the count, which is taken over deduplicated page numbers. -/
theorem c9_distinct_pages_bound :
    ∀ (api_key : Option String) (oracle : Nat → Nat → Resp) (q f t : String)
      (mp ps : Nat),
      ((((cached_fetch_news api_key oracle q f t mp ps).2).filterMap
        reqPage).dedup).length ≤ mp := by
  intro api_key oracle q f t mp ps
  cases api_key with
  | none => simp [cached_fetch_news]
  | some k =>
    by_cases hk : k = ""
    · simp [cached_fetch_news, hk]
    · have hsub : ((((fetchPages oracle ps mp 1 []).2).filterMap
          reqPage).dedup) ⊆ List.range' 1 mp := by
        intro x hx
        obtain ⟨e, he, hpe⟩ := List.mem_filterMap.mp (List.mem_dedup.mp hx)
        have := fetchPages_trace_page_bounds oracle ps mp 1 [] e x he hpe
        rw [List.mem_range'_1]
        omega
      have hnodup := List.nodup_dedup
        (((fetchPages oracle ps mp 1 []).2).filterMap reqPage)
      have hlen := (List.subperm_of_subset hnodup hsub).length_le
      have hcore : ((((fetchPages oracle ps mp 1 []).2).filterMap
          reqPage).dedup).length ≤ mp := by
        simpa using hlen
      simpa [cached_fetch_news, hk] using hcore

/-! ### Claim C10 -/

/-- C10: the fetch always terminates with a bounded trace: at most 5
requests are issued for any single page (per-page retries strictly increase
until a ceiling), and at most `5 * max_pages` requests in total. -/
theorem c10_bounded_attempts :
    ∀ (api_key : Option String) (oracle : Nat → Nat → Resp) (q f t : String)
      (mp ps : Nat),
      ((cached_fetch_news api_key oracle q f t mp ps).2).countP isReq ≤
        5 * mp ∧
      ∀ p, ((cached_fetch_news api_key oracle q f t mp ps).2).countP
        (fun e => decide (reqPage e = some p)) ≤ 5 := by
  intro api_key oracle q f t mp ps
  cases api_key with
  | none => simp [cached_fetch_news]
  | some k =>
    by_cases hk : k = ""
    · simp [cached_fetch_news, hk]
    · constructor
      · have h := fetchPages_countP_total oracle ps mp 1 []
        simpa [cached_fetch_news, hk] using h
      · intro p
        have h := fetchPages_countP_page oracle ps mp 1 [] p
        simpa [cached_fetch_news, hk] using h

/-! ### Origin of output articles -/

/-- Every article the inner loop adds to the accumulator is the
normalization of a raw article delivered by the provider for this page. -/
theorem mem_fetchPageLoop (oracle : Nat → Nat → Resp) (ps page : Nat) :
    ∀ (fuel retries : Nat) (acc : List Article) (a : Article),
      a ∈ (fetchPageLoop oracle ps page fuel retries acc).2.1 →
      a ∈ acc ∨ ∃ r raws raw, oracle page r = Resp.http 200 (some raws) ∧
        raw ∈ raws ∧ a = normalize raw := by
  intro fuel
  induction fuel with
  | zero =>
    intro retries acc a ha
    simp only [fetchPageLoop] at ha
    exact Or.inl ha
  | succ n ih =>
    intro retries acc a ha
    rcases horc : oracle page retries with _ | ⟨status, body⟩
    · by_cases hc : retries + 1 > 3
      · simp [fetchPageLoop, horc, hc] at ha
        exact Or.inl ha
      · simp [fetchPageLoop, horc, hc] at ha
        exact ih (retries + 1) acc a ha
    · by_cases h200 : status = 200
      · subst h200
        cases body with
        | none =>
          rw [fetchPageLoop_200_empty ps n acc horc (by simp)] at ha
          exact Or.inl (by simpa using ha)
        | some raws =>
          by_cases hraws : raws = []
          · subst hraws
            rw [fetchPageLoop_200_empty ps n acc horc (by simp)] at ha
            exact Or.inl (by simpa using ha)
          · have hsplit : a ∈ acc ++ raws.map normalize →
                a ∈ acc ∨ ∃ r raws2 raw,
                  oracle page r = Resp.http 200 (some raws2) ∧
                  raw ∈ raws2 ∧ a = normalize raw := by
              intro hmem
              rcases List.mem_append.mp hmem with h | h
              · exact Or.inl h
              · obtain ⟨raw, hraw, hnorm⟩ := List.mem_map.mp h
                exact Or.inr ⟨retries, raws, raw, horc, hraw, hnorm.symm⟩
            by_cases hlt : raws.length < ps
            · rw [fetchPageLoop_200_short ps n acc horc hraws hlt] at ha
              exact hsplit (by simpa using ha)
            · rw [fetchPageLoop_200_full ps n acc horc hraws hlt] at ha
              exact hsplit (by simpa using ha)
      · by_cases htr : status = 429 ∨ status = 503 ∨ status = 500
        · by_cases hc : retries + 1 > 4
          · simp [fetchPageLoop, horc, h200, htr, hc] at ha
            exact Or.inl ha
          · simp [fetchPageLoop, horc, h200, htr, hc] at ha
            exact ih (retries + 1) acc a ha
        · simp [fetchPageLoop, horc, h200, htr] at ha
          exact Or.inl ha

/-- Every article in the whole fetch's output comes from the accumulator or
is the normalization of a provider article from some 200 response. -/
theorem mem_fetchPages (oracle : Nat → Nat → Resp) (ps : Nat) :
    ∀ (remaining page : Nat) (acc : List Article) (a : Article),
      a ∈ (fetchPages oracle ps remaining page acc).1 →
      a ∈ acc ∨ ∃ p r raws raw, oracle p r = Resp.http 200 (some raws) ∧
        raw ∈ raws ∧ a = normalize raw := by
  intro remaining
  induction remaining with
  | zero =>
    intro page acc a ha
    simp only [fetchPages] at ha
    exact Or.inl ha
  | succ n ih =>
    intro page acc a ha
    rcases hfp : fetchPage oracle ps page acc with ⟨outcome, acc2, tr⟩
    have h5 : fetchPageLoop oracle ps page 5 0 acc = (outcome, acc2, tr) := hfp
    have hacc2 : ∀ a2 : Article, a2 ∈ acc2 →
        a2 ∈ acc ∨ ∃ p r raws raw,
          oracle p r = Resp.http 200 (some raws) ∧ raw ∈ raws ∧
            a2 = normalize raw := by
      intro a2 ha2
      rcases mem_fetchPageLoop oracle ps page 5 0 acc a2
          (by rw [h5]; exact ha2) with h | ⟨r, raws, raw, h1, h2, h3⟩
      · exact Or.inl h
      · exact Or.inr ⟨page, r, raws, raw, h1, h2, h3⟩
    cases outcome with
    | done =>
      rw [fetchPages_step_done n hfp] at ha
      exact hacc2 a (by simpa using ha)
    | next =>
      rw [fetchPages_step_next n hfp] at ha
      rcases ih (page + 1) acc2 a (by simpa using ha) with h |
          ⟨p, r, raws, raw, h1, h2, h3⟩
      · exact hacc2 a h
      · exact Or.inr ⟨p, r, raws, raw, h1, h2, h3⟩

/-! ### Claim C8 -/

/-- C8: an output article has exactly the fields `title`, `description`,
`content`, `url`, `source`, `publishedAt` (the `Article` structure), each
copied from the corresponding optional provider field — so an absent
provider field is a missing value, not an error — with `source` derived from
the provider record's nested `source.name`; and every article in the
fetcher's output arises as `normalize` of some raw article delivered by the
provider in a 200 response. -/
theorem c8_article_fields :
    (∀ raw : RawArticle,
      (normalize raw).title = raw.title ∧
      (normalize raw).description = raw.description ∧
      (normalize raw).content = raw.content ∧
      (normalize raw).url = raw.url ∧
      (normalize raw).source = (raw.source.getD { name := none }).name ∧
      (normalize raw).publishedAt = raw.publishedAt) ∧
    (∀ (api_key : Option String) (oracle : Nat → Nat → Resp) (q f t : String)
        (mp ps : Nat) (l : List Article),
      (cached_fetch_news api_key oracle q f t mp ps).1 = Except.ok l →
      ∀ a ∈ l, ∃ p r raws raw,
        oracle p r = Resp.http 200 (some raws) ∧ raw ∈ raws ∧
          a = normalize raw) := by
  constructor
  · intro raw
    exact ⟨rfl, rfl, rfl, rfl, rfl, rfl⟩
  · intro api_key oracle q f t mp ps l hl a ha
    cases api_key with
    | none => simp [cached_fetch_news] at hl
    | some k =>
      by_cases hk : k = ""
      · simp [cached_fetch_news, hk] at hl
      · have hl2 : (fetchPages oracle ps mp 1 []).1 = l := by
          simpa [cached_fetch_news, hk] using hl
        subst hl2
        rcases mem_fetchPages oracle ps mp 1 [] a ha with h |
            ⟨p, r, raws, raw, h1, h2, h3⟩
        · simp at h
        · exact ⟨p, r, raws, raw, h1, h2, h3⟩

/-- Witness for C8: the single output article of a one-page fetch is the
normalization of a provider record. -/
theorem c8_article_fields_witness :
    ∃ p r raws raw, orcOne p r = Resp.http 200 (some raws) ∧ raw ∈ raws ∧
      normalize (mkRaw "w") = normalize raw :=
  c8_article_fields.2 (some "key") orcOne "q" "f" "t" 1 2
    [normalize (mkRaw "w")] (by rfl) (normalize (mkRaw "w")) (by simp)

/-! ### Claim C6 -/

/-- C6: two calls of the cached entry point with the same Query Key, the
first on a fresh (absent or expired) key: the first call runs the
underlying fetch; a second call within the 5-minute time-to-live returns
the identical result without running the fetch again (at most one
underlying round trip sequence); a second call at or after expiry of the
time-to-live runs a fresh fetch. -/
theorem c6_cache_ttl :
    ∀ (fetchFn : QueryKey → List Article)
      (cache : List (QueryKey × CacheEntry)) (key : QueryKey) (t0 t1 : Nat),
      cacheLookup cache key t0 = none →
      ((cachedCall fetchFn cache key t0).2.2 = true ∧
        (cachedCall fetchFn cache key t0).1 = fetchFn key) ∧
      (t1 < t0 + cacheTTL →
        (cachedCall fetchFn (cachedCall fetchFn cache key t0).2.1 key t1).1 =
          (cachedCall fetchFn cache key t0).1 ∧
        (cachedCall fetchFn (cachedCall fetchFn cache key t0).2.1 key t1).2.2 =
          false) ∧
      (t0 + cacheTTL ≤ t1 →
        (cachedCall fetchFn (cachedCall fetchFn cache key t0).2.1 key t1).2.2 =
          true) := by
  intro fetchFn cache key t0 t1 hmiss
  have hfirst : cachedCall fetchFn cache key t0 =
      (fetchFn key,
        (key, { result := fetchFn key, storedAt := t0 }) :: cache, true) := by
    simp [cachedCall, hmiss]
  have hlook2 : ∀ now : Nat,
      cacheLookup
        ((key, { result := fetchFn key, storedAt := t0 }) :: cache) key now =
      if now < t0 + cacheTTL then some (fetchFn key) else none := by
    intro now
    simp only [cacheLookup]
    rw [List.find?_cons_of_pos _ (by simp)]
  refine ⟨⟨by rw [hfirst], by rw [hfirst]⟩, ?_, ?_⟩
  · intro hfresh
    constructor
    · rw [hfirst]
      simp [cachedCall, hlook2 t1, hfresh]
    · rw [hfirst]
      simp [cachedCall, hlook2 t1, hfresh]
  · intro hexp
    have hstale : ¬ t1 < t0 + cacheTTL := by omega
    rw [hfirst]
    simp [cachedCall, hlook2 t1, hstale]

/-- Witness for C6: a fresh key fetched at time 0, re-queried at time 100
(inside the 300-second time-to-live) and at time 400 (past it). -/
theorem c6_cache_ttl_witness :
    (cachedCall fetchFn0 [] key0 0).2.2 = true ∧
    (cachedCall fetchFn0 ((cachedCall fetchFn0 [] key0 0).2.1) key0 100).1 =
      (cachedCall fetchFn0 [] key0 0).1 ∧
    (cachedCall fetchFn0 ((cachedCall fetchFn0 [] key0 0).2.1) key0 100).2.2 =
      false ∧
    (cachedCall fetchFn0 ((cachedCall fetchFn0 [] key0 0).2.1) key0 400).2.2 =
      true :=
  ⟨(c6_cache_ttl fetchFn0 [] key0 0 100 rfl).1.1,
    ((c6_cache_ttl fetchFn0 [] key0 0 100 rfl).2.1 (by decide)).1,
    ((c6_cache_ttl fetchFn0 [] key0 0 100 rfl).2.1 (by decide)).2,
    (c6_cache_ttl fetchFn0 [] key0 0 400 rfl).2.2 (by decide)⟩

end News
